import Mathlib

/-!
Shallow embedding of `scripts/fetch_ids.py` (IDS static-JSON builder) and
proofs of the spec's claims about it.

Conventions of the embedding:
* Python dict fields that may be absent are `Option String`; a `.get` that can
  yield `None` under `str(...)` is rendered through `pyStr`.
* JSON record sets that the HTTP layer would return are passed in as explicit
  lists; `get_json` failures become `Except.error`.
* Python dicts used as year → value stores become update-functions
  `String → Option Rat`; Python `float` values are modelled as exact rationals,
  with convertibility of a scalar made explicit by the `Scalar` type.
-/

namespace FetchIds

/-- Python truthiness chain `a or b or ""` over optional string fields: the
first present, non-empty string, else `""`. -/
def firstTruthy : List (Option String) → String
  | [] => ""
  | none :: rest => firstTruthy rest
  | some s :: rest => if s = "" then firstTruthy rest else s

/-- Python `str(x)` applied to the result of a `.get(key)` with no default: a
missing key yields `None`, which `str` renders as `"None"`. -/
def pyStr : Option String → String
  | none => "None"
  | some s => s

/-- Python `needle in hay` (equivalently `hay.find(needle) >= 0`) on character
lists. -/
def hasSub (hay needle : List Char) : Bool :=
  match hay with
  | [] => needle.isEmpty
  | _ :: t => needle.isPrefixOf hay || hasSub t needle

/-- One entry of a record's `variable` tuple list: the label may sit under
`name` or `concept`, the payload under `id` or `value` (fetch_ids.py, module
docstring and lines 73–111). -/
structure Tup where
  name : Option String := none
  concept : Option String := none
  id : Option String := none
  value : Option String := none
deriving DecidableEq

/-- The scalar `value` of a raw API record, as seen by Python `float(v)`:
either a value `float` converts (carrying the converted number) or one it
raises on (a non-numeric string). -/
inductive Scalar where
  | conv (q : Rat)
  | nonconv (s : String)
deriving DecidableEq

/-- One raw API record: `r.get("variable", [])` and `r.get("value", None)`
(fetch_ids.py lines 131, 153, 167–169). -/
structure Record where
  vars : List Tup := []
  value : Option Scalar := none
deriving DecidableEq

/-- Python `s.lower()`, character by character (ASCII view), as a char list. -/
def lowerList (s : String) : List Char := s.toList.map Char.toLower

/-- Label of a tuple: `str(v.get("name") or v.get("concept") or "")`
(fetch_ids.py lines 76, 97). -/
def labelOf (v : Tup) : String := firstTruthy [v.name, v.concept]

/-- Line 76 condition: the label, lowercased, contains `"time"`. -/
def isTimeTup (v : Tup) : Bool := hasSub (lowerList (labelOf v)) "time".toList

/-- Lines 76–78: `v = next((v for v in vars_arr if ... "time" ...), None)`,
then `if v is None and len(vars_arr) > 1: v = vars_arr[1]`. -/
def chooseTimeTuple (l : List Tup) : Option Tup :=
  match l.find? isTimeTup with
  | some v => some v
  | none => if l.length > 1 then l[1]? else none

/-- Line 84: `token.lower().startswith("yr") and token[2:6].isdigit()`, giving
`token[2:6]`. Python `"".isdigit()` is `False`, hence the non-empty test. -/
def yrSlice (cs : List Char) : Option String :=
  match cs with
  | c0 :: c1 :: rest =>
    if c0.toLower = 'y' ∧ c1.toLower = 'r' then
      let four := rest.take 4
      if four ≠ [] ∧ four.all Char.isDigit then some (String.mk four) else none
    else none
  | _ => none

/-- Lines 85–89: scan every 4-character contiguous window of the token,
left to right, returning the first all-digit one. -/
def scanDigit4 : List Char → Option String
  | a :: b :: c :: d :: rest =>
    if a.isDigit && b.isDigit && c.isDigit && d.isDigit then some (String.mk [a, b, c, d])
    else scanDigit4 (b :: c :: d :: rest)
  | _ => none

/-- Lines 84–89, the per-token body of the loop: the `yr`-slice test first,
else the 4-digit window scan. -/
def yearFromToken (token : String) : Option String :=
  match yrSlice token.toList with
  | some s => some s
  | none => scanDigit4 token.toList

/-- Lines 80–90, the token loop: skip empty tokens, return the first year a
token yields, else `""` after the loop. -/
def firstYear : List String → String
  | [] => ""
  | t :: rest =>
    if t = "" then firstYear rest
    else
      match yearFromToken t with
      | some y => y
      | none => firstYear rest

/-- `extract_year` (fetch_ids.py lines 73–90) on an actual tuple list; the
`not isinstance(vars_arr, list)` guard is outside the embedded domain. The
candidate token is `str(v.get("id") if v else "")` and the remaining tokens
are `str(v.get("value", ""))` for every tuple. -/
def extract_year (l : List Tup) : String :=
  let v := chooseTimeTuple l
  let cand :=
    match v with
    | none => ""
    | some t => pyStr t.id
  firstYear (cand :: l.map (fun t => t.value.getD ""))

/-- Python `s.isalpha() and s.isupper()` restricted to a single ASCII
character: an uppercase letter. -/
def isUpperAZ (c : Char) : Bool := 'A' ≤ c ∧ c ≤ 'Z'

/-- Lines 100–103 / 107–110: scan every 3-character contiguous window of the
token, left to right, returning the first all-uppercase-alphabetic one. -/
def scanUpper3 : List Char → Option String
  | a :: b :: c :: rest =>
    if isUpperAZ a && isUpperAZ b && isUpperAZ c then some (String.mk [a, b, c])
    else scanUpper3 (b :: c :: rest)
  | _ => none

/-- Line 98: the label is non-empty and contains `"country"` or `"economy"`
case-insensitively. -/
def isGeoTup (v : Tup) : Bool :=
  let nm := labelOf v
  nm ≠ "" && (hasSub (lowerList nm) "country".toList || hasSub (lowerList nm) "economy".toList)

/-- Line 99: `str(v.get("id") or v.get("value") or "")`. -/
def geoCode (v : Tup) : String := firstTruthy [v.id, v.value]

/-- Lines 96–103, the labeled pass of `extract_iso3`: for each
country/economy-labeled tuple, scan its `geoCode`; return the first hit. -/
def pass1 : List Tup → Option String
  | [] => none
  | v :: rest =>
    if isGeoTup v then
      match scanUpper3 (geoCode v).toList with
      | some s => some s
      | none => pass1 rest
    else pass1 rest

/-- Lines 105–110, the fallback pass: for each tuple, scan
`str(v.get("id") or "")` then `str(v.get("value") or "")`. -/
def pass2 : List Tup → Option String
  | [] => none
  | v :: rest =>
    match scanUpper3 (v.id.getD "").toList with
    | some s => some s
    | none =>
      match scanUpper3 (v.value.getD "").toList with
      | some s => some s
      | none => pass2 rest

/-- `extract_iso3` (fetch_ids.py lines 93–111). -/
def extract_iso3 (l : List Tup) : String :=
  match pass1 l with
  | some s => s
  | none =>
    match pass2 l with
    | some s => s
    | none => ""

/-- §4.4 ISO3 step 1 exactly as the spec words it: among the tuples whose
label matches country/economy, the first one whose payload holds an uppercase
3-letter run determines the result. Used to state C6 as a refinement. -/
def specLabeledIso3 (l : List Tup) : Option String :=
  (l.filter isGeoTup).findSome? (fun v => scanUpper3 (geoCode v).toList)

/-- §4.4 ISO3 step 2 as the spec words it: over all tuples in order, id field
then value field. -/
def specAnyIso3 (l : List Tup) : Option String :=
  l.findSome? (fun v =>
    (scanUpper3 (v.id.getD "").toList).orElse (fun _ => scanUpper3 (v.value.getD "").toList))

/-- §4.4 ISO3 extraction as the spec words it: step 1, else step 2, else
the empty string. -/
def specExtractIso3 (l : List Tup) : String :=
  (((specLabeledIso3 l).orElse (fun _ => specAnyIso3 l)).getD "")

/-- Python `int(s)` restricted to all-digit strings, the only strings it is
applied to in this program (results of `extract_year` and `str` of a
non-negative int). -/
def pyInt (s : String) : Int :=
  Int.ofNat (s.toList.foldl (fun n c => 10 * n + (c.toNat - 48)) 0)

/-- `find_latest_year`, lines 150–155: fold the running maximum `best` over
the rows, `if y and (not best or int(y) > int(best)): best = y`. -/
def bestYear (rows : List Record) : String :=
  rows.foldl
    (fun best r =>
      let y := extract_year r.vars
      if y ≠ "" ∧ (best = "" ∨ pyInt y > pyInt best) then y else best) ""

/-- `find_latest_year` (fetch_ids.py lines 146–159); `currentYear` stands for
`time.gmtime().tm_year`. -/
def find_latest_year (rows : List Record) (currentYear : Int) : String :=
  let best := bestYear rows
  if best = "" then toString (max 2000 (currentYear - 2)) else best

/-- Python `float(v)` on a present scalar, as a partial conversion. -/
def floatOf : Scalar → Option Rat
  | .conv q => some q
  | .nonconv _ => none

/-- Lines 167–174, one iteration of the row loop of `fetch_series_range`:
`if y and (v is not None): try: out[str(y)] = float(v) except: pass`. -/
def seriesStep (m : String → Option Rat) (r : Record) : String → Option Rat :=
  let y := extract_year r.vars
  if y = "" then m
  else
    match r.value with
    | none => m
    | some s =>
      match floatOf s with
      | some q => fun k => if k = y then some q else m k
      | none => m

/-- `fetch_series_range` (fetch_ids.py lines 162–175). The first four
arguments only ever reach the request URL; `rows` is the decoded
`j["source"]["data"]` of the response. -/
def fetch_series_range (iso3 code yStart yEnd : String) (rows : List Record) :
    String → Option Rat :=
  let _ := (iso3, code, yStart, yEnd)
  rows.foldl seriesStep (fun _ => none)

/-- The contribution of a single record as §4.5 words it: its extracted year
(when extractable) paired with its scalar value (when present and
convertible); otherwise nothing. -/
def recEntry (r : Record) : Option (String × Rat) :=
  if extract_year r.vars = "" then none
  else
    match r.value with
    | none => none
    | some s =>
      match floatOf s with
      | some q => some (extract_year r.vars, q)
      | none => none

/-- §4.5 as the spec words it: the mapping holds exactly the contributing
records' years, the last record winning on a repeated year. Used to state C7
as a refinement. -/
def specLastWins (rows : List Record) (k : String) : Option Rat :=
  ((rows.filterMap recEntry).filter (fun p => p.1 = k)).getLast?.map Prod.snd

/-- Python `range(a, b)` over integers. -/
def pyRange (a b : Int) : List Int :=
  (List.range (b - a).toNat).map (fun i : Nat => a + (i : Int))

/-- fetch_ids.py line 48. -/
def YEARS_TO_SHOW : Int := 11

/-- Line 196, the integer years: `range(end - YEARS_TO_SHOW + 1, end + 1)`. -/
def yearsWindow (e : Int) : List Int := pyRange (e - YEARS_TO_SHOW + 1) (e + 1)

/-- Line 196: `years = [str(y) for y in range(end - YEARS_TO_SHOW + 1, end + 1)]`. -/
def yearsOf (e : Int) : List String := (yearsWindow e).map toString

/-- Lines 129–133 of `fetch_source6_countries`: the probe loop
`seen.setdefault(iso, {"id": iso, "name": iso})` over the rows, keeping an
association list (id, name) in dict insertion order. -/
def collectSeen : List Record → List (String × String) → List (String × String)
  | [], acc => acc
  | r :: rest, acc =>
    let iso := extract_iso3 r.vars
    if iso = "" then collectSeen rest acc
    else if acc.any (fun p => p.1 = iso) then collectSeen rest acc
    else collectSeen rest (acc ++ [(iso, iso)])

/-- Lines 135–142: upgrade names from the secondary `/country` endpoint,
`if k in names: v["name"] = names[k]`; the endpoint's dict is abstracted as a
lookup function. -/
def upgradeNames (seen : List (String × String)) (names : String → Option String) :
    List (String × String) :=
  seen.map (fun p =>
    match names p.1 with
    | some n => (p.1, n)
    | none => p)

/-- Lines 125–143, the fallback path of `fetch_source6_countries`: derive the
universe from the probe rows, optionally upgrade names (`names? = none` is the
`except: pass` of lines 141–142), and sort by id. -/
def fallbackCountries (rows : List Record) (names? : Option (String → Option String)) :
    List (String × String) :=
  let seen := collectSeen rows []
  let seen2 :=
    match names? with
    | some names => upgradeNames seen names
    | none => seen
  seen2.insertionSort (fun a b => a.1 ≤ b.1)

/-- Lines 118–119, the primary path's filter: keep entries with truthy id and
name, as (id, name). An entry is a pair of the optional `id` and `name`
fields. -/
def primaryFilter (arr : List (Option String × Option String)) : List (String × String) :=
  arr.filterMap (fun c =>
    match c with
    | (some i, some n) => if i ≠ "" ∧ n ≠ "" then some (i, n) else none
    | _ => none)

/-- `fetch_source6_countries` (fetch_ids.py lines 114–143). `primary` is the
outcome of the primary country-list call (`Except.error` when `get_json` or
the decoding raises); `rows` is the probe's `j["source"]["data"]`. -/
def fetch_source6_countries (primary : Except Unit (List (Option String × Option String)))
    (rows : List Record) (names? : Option (String → Option String)) :
    List (String × String) :=
  match primary with
  | .ok arr =>
    let out := primaryFilter arr
    if out ≠ [] then out else fallbackCountries rows names?
  | .error _ => fallbackCountries rows names?

/-- fetch_ids.py lines 32–46. -/
def INDICATORS : List String :=
  ["DT.DOD.DECT.CD", "DT.DOD.DLXF.CD", "DT.DOD.DPPG.CD", "DT.DOD.DPNG.CD",
   "DT.DOD.DIMF.CD", "DT.DOD.DSTC.CD", "DT.TDS.DECT.CD", "DT.AMT.DECT.CD",
   "DT.INT.DECT.CD", "DT.DIS.DLXF.CD", "DT.DOD.DECT.GN.ZS", "DT.TDS.DECT.EX.ZS",
   "DT.INT.DECT.EX.ZS"]

/-- A per-country series store. -/
abbrev Series := String → Option Rat

/-- The HTTP layer as seen by `main`: the decoded rows each endpoint would
yield for a country (`latestRows`) or a country/indicator/range
(`seriesRows`); `Except.error` is a `get_json` RuntimeError after retry
exhaustion. -/
structure Api where
  latestRows : String → Except String (List Record)
  seriesRows : String → String → String → String → Except String (List Record)

/-- One per-country output file (fetch_ids.py lines 204–214). -/
structure Dataset where
  country : String
  name : String
  latest_year : Int
  years : List String
  series : List (String × Series)

/-- Lines 200–202, the indicator loop: fetch each indicator in order; a raised
fetch error aborts the remaining indicators (no indicator-level isolation). -/
def fetchAllSeries (api : Api) (iso3 yS yE : String) :
    List String → Except String (List (String × Series))
  | [] => .ok []
  | code :: rest => do
    let rows ← api.seriesRows iso3 code yS yE
    let tail ← fetchAllSeries api iso3 yS yE rest
    .ok ((code, fetch_series_range iso3 code yS yE rows) :: tail)

/-- Lines 194–214, the body of the per-country `try` block: discovery, the
11-year window, the indicator fetches and the assembled output object. Any
exception propagates out. -/
def buildDataset (api : Api) (currentYear : Int) (iso3 nm : String) : Except String Dataset := do
  let rows ← api.latestRows iso3
  let latest := find_latest_year rows currentYear
  let e := pyInt latest
  let years := yearsOf e
  let yS := years.headD ""
  let yE := years.getLastD ""
  let sm ← fetchAllSeries api iso3 yS yE INDICATORS
  .ok { country := iso3, name := nm, latest_year := e, years := years, series := sm }

/-- Lines 190–222, the country loop: a country whose `try` block raises is
logged and skipped (`except ... # keep going`), every other country appends
its output file, in order. -/
def countryLoop (api : Api) (currentYear : Int) (countries : List (String × String)) :
    List (String × Dataset) :=
  countries.foldl
    (fun acc c =>
      match buildDataset api currentYear c.1 c.2 with
      | .ok d => acc ++ [(c.1, d)]
      | .error _ => acc) []

/-- `main` (fetch_ids.py lines 178–223): the list of per-country output files
written, and the process exit code (2 on an empty universe, else 0). -/
def main (api : Api) (currentYear : Int) (countries : List (String × String)) :
    List (String × Dataset) × Nat :=
  if countries = [] then ([], 2) else (countryLoop api currentYear countries, 0)

/-- A concrete `Api` for the partial-failure scenario of C9: the middle
country's discovery probe raises, the two others answer with empty row sets. -/
def demoApi : Api where
  latestRows := fun i => if i = "BBB" then .error "boom" else .ok []
  seriesRows := fun _ _ _ _ => .ok []

/-- A concrete `Api` whose discovery probe reports a single record from 1985,
used to show the code enforces no year-2000 floor once a year is
extractable. -/
def probeApi1985 : Api where
  latestRows := fun _ => .ok [⟨[⟨some "time", none, some "yr1985", none⟩], none⟩]
  seriesRows := fun _ _ _ _ => .ok []

/-- C1: for every `latest_year = Y`, the produced `years` array is
`[str(Y-10), ..., str(Y)]`: exactly 11 entries whose underlying integers are
strictly increasing, consecutive, and end at `Y`. -/
theorem c1_years_window (Y : Int) :
    yearsOf Y =
      [toString (Y - 10), toString (Y - 9), toString (Y - 8), toString (Y - 7),
       toString (Y - 6), toString (Y - 5), toString (Y - 4), toString (Y - 3),
       toString (Y - 2), toString (Y - 1), toString Y] ∧
    (yearsOf Y).length = 11 ∧
    List.Chain' (fun a b => b = a + 1) (yearsWindow Y) ∧
    List.Pairwise (fun a b => a < b) (yearsWindow Y) ∧
    (yearsWindow Y).getLast? = some Y := by
  have hw : yearsWindow Y =
      [Y - 10, Y - 9, Y - 8, Y - 7, Y - 6, Y - 5, Y - 4, Y - 3, Y - 2, Y - 1, Y] := by
    unfold yearsWindow pyRange YEARS_TO_SHOW
    rw [show (Y + 1 - (Y - 11 + 1)).toNat = 11 by omega]
    rw [show List.range 11 = [0, 1, 2, 3, 4, 5, 6, 7, 8, 9, 10] from rfl]
    simp only [List.map_cons, List.map_nil, List.cons.injEq, and_true]
    norm_num
    omega
  refine ⟨?_, ?_, ?_, ?_, ?_⟩
  · unfold yearsOf
    rw [hw]
    rfl
  · unfold yearsOf
    rw [hw]
    rfl
  · rw [hw]
    simp only [List.chain'_cons, List.chain'_singleton, and_true]
    omega
  · rw [hw]
    simp only [List.pairwise_cons, List.mem_cons, List.mem_singleton, List.not_mem_nil,
      forall_eq_or_imp, forall_eq, List.Pairwise.nil, and_true]
    norm_num
  · rw [hw]
    rfl

/-- C2 counterexample: the Series Fetcher itself never filters by the window;
given a record whose extracted year is 1990, a fetch over [2013, 2023] stores
the key "1990", outside the window. -/
theorem c2_counterexample :
    fetch_series_range "AFG" "DT.DOD.DECT.CD" "2013" "2023"
      [⟨[⟨some "time", none, some "yr1990", none⟩], some (.conv 1)⟩] "1990" = some 1 ∧
    ¬(pyInt "2013" ≤ pyInt "1990" ∧ pyInt "1990" ≤ pyInt "2023") :=
  ⟨rfl, by decide⟩

/-- C3 counterexample: when a year is extractable the floor is not applied; a
probe whose only record is from 1985 produces `latest_year = 1985 < 2000` in
the written dataset. -/
theorem c3_counterexample :
    find_latest_year [⟨[⟨some "time", none, some "yr1985", none⟩], none⟩] 2026 = "1985" ∧
    (buildDataset probeApi1985 2026 "AFG" "Afghanistan").toOption.map Dataset.latest_year
      = some 1985 ∧
    (1985 : Int) < 2000 :=
  ⟨rfl, rfl, by decide⟩

/-- C4 counterexample: the guard `token[2:6].isdigit()` also accepts 1–3
digits after "yr", so extraction can return a string that is neither empty
nor 4 digits long. -/
theorem c4_counterexample :
    extract_year [⟨some "time", none, some "yr123", none⟩] = "123" ∧
    ("123" : String).length ≠ 4 ∧ ("123" : String) ≠ "" := by
  decide

theorem yrSlice_shape {cs : List Char} {s : String} (h : yrSlice cs = some s) :
    1 ≤ s.length ∧ s.length ≤ 4 ∧ s.toList.all Char.isDigit = true := by
  match cs with
  | [] => simp [yrSlice] at h
  | [c0] => simp [yrSlice] at h
  | c0 :: c1 :: rest =>
    simp only [yrSlice] at h
    split at h
    · split at h
      · rename_i hfour
        obtain ⟨hne, hdig⟩ := hfour
        obtain rfl : String.mk (rest.take 4) = s := by injection h
        refine ⟨?_, ?_, hdig⟩
        · exact List.length_pos.mpr hne
        · exact List.length_take_le 4 rest
      · exact absurd h (by simp)
    · exact absurd h (by simp)

theorem scanDigit4_shape :
    ∀ cs s, scanDigit4 cs = some s → s.length = 4 ∧ s.toList.all Char.isDigit = true
  | a :: b :: c :: d :: rest, s, h => by
    simp only [scanDigit4] at h
    split at h
    · rename_i hdig
      obtain rfl : String.mk [a, b, c, d] = s := by injection h
      simp only [Bool.and_eq_true] at hdig
      refine ⟨rfl, ?_⟩
      simp [hdig.1.1.1, hdig.1.1.2, hdig.1.2, hdig.2]
    · exact scanDigit4_shape (b :: c :: d :: rest) s h
  | [], _, h => by simp [scanDigit4] at h
  | [_], _, h => by simp [scanDigit4] at h
  | [_, _], _, h => by simp [scanDigit4] at h
  | [_, _, _], _, h => by simp [scanDigit4] at h

theorem yearFromToken_shape {t : String} {s : String} (h : yearFromToken t = some s) :
    1 ≤ s.length ∧ s.length ≤ 4 ∧ s.toList.all Char.isDigit = true := by
  unfold yearFromToken at h
  split at h
  · rename_i hy
    cases h
    exact yrSlice_shape hy
  · obtain ⟨h4, hdig⟩ := scanDigit4_shape _ _ h
    exact ⟨by omega, by omega, hdig⟩

theorem firstYear_shape : ∀ ts : List String,
    firstYear ts = "" ∨ ∃ t, yearFromToken t = some (firstYear ts)
  | [] => Or.inl rfl
  | t :: rest => by
    unfold firstYear
    split
    · exact firstYear_shape rest
    · split
      · rename_i y hy
        exact Or.inr ⟨t, hy⟩
      · exact firstYear_shape rest

/-- C4 amended: year extraction returns either the empty string or a
non-empty all-digit string of AT MOST 4 characters; the "yr" branch returns
`token[2:6]` whenever that non-empty slice is all digits (so 1 to 4 digits,
not only exactly 4), while the 4-character window scan alone always yields
exactly 4 digits. -/
theorem c4_amended :
    (∀ l : List Tup, extract_year l = "" ∨
      (1 ≤ (extract_year l).length ∧ (extract_year l).length ≤ 4 ∧
        (extract_year l).toList.all Char.isDigit = true)) ∧
    (∀ cs s, scanDigit4 cs = some s → s.length = 4 ∧ s.toList.all Char.isDigit = true) ∧
    (∀ cs s, yrSlice cs = some s →
      1 ≤ s.length ∧ s.length ≤ 4 ∧ s.toList.all Char.isDigit = true) := by
  refine ⟨?_, fun cs s h => scanDigit4_shape cs s h, fun cs s h => yrSlice_shape h⟩
  intro l
  unfold extract_year
  rcases firstYear_shape
      ((match chooseTimeTuple l with
        | none => ""
        | some t => pyStr t.id) :: l.map (fun t => t.value.getD "")) with h | ⟨t, ht⟩
  · exact Or.inl h
  · exact Or.inr (yearFromToken_shape ht)

theorem c4_amended_witness :
    ("1234" : String).length = 4 ∧ ("1234" : String).toList.all Char.isDigit = true :=
  c4_amended.2.1 ['1', '2', '3', '4'] "1234" rfl

theorem seriesStep_recEntry (m : String → Option Rat) (r : Record) :
    seriesStep m r =
      match recEntry r with
      | none => m
      | some p => fun k => if k = p.1 then some p.2 else m k := by
  unfold seriesStep recEntry
  by_cases hy : extract_year r.vars = ""
  · simp [hy]
  · simp only [hy, if_neg, if_false]
    cases hv : r.value with
    | none => rfl
    | some s =>
      cases hf : floatOf s with
      | none => simp [hf]
      | some q => simp [hf]

theorem fsr_eq_lastWins (rows : List Record) (k : String) :
    (rows.foldl seriesStep (fun _ => none)) k = specLastWins rows k := by
  induction rows using List.reverseRecOn with
  | nil => simp [specLastWins]
  | append_singleton rows r ih =>
    rw [List.foldl_append, List.foldl_cons, List.foldl_nil, seriesStep_recEntry]
    unfold specLastWins
    rw [List.filterMap_append]
    cases hre : recEntry r with
    | none =>
      simp only [List.filterMap_cons, List.filterMap_nil, hre, List.append_nil]
      exact ih
    | some p =>
      obtain ⟨y, q⟩ := p
      simp only [List.filterMap_cons, List.filterMap_nil, hre]
      rw [List.filter_append]
      by_cases hk : k = y
      · subst hk
        simp [List.filter_cons, List.getLast?_concat]
      · have hfil : List.filter (fun p => p.1 = k) [(y, q)] = [] := by
          simp [List.filter_cons, Ne.symm hk]
        rw [hfil, List.append_nil]
        simp only [if_neg hk]
        exact ih

theorem recEntry_some {r : Record} {p : String × Rat} (h : recEntry r = some p) :
    p.1 = extract_year r.vars ∧ extract_year r.vars ≠ "" := by
  unfold recEntry at h
  split at h
  · exact absurd h (by simp)
  · rename_i hne
    cases hv : r.value with
    | none => rw [hv] at h; exact absurd h (by simp)
    | some s =>
      rw [hv] at h
      have h2 : (match floatOf s with
          | some q => some (extract_year r.vars, q)
          | none => none) = some p := h
      cases hf : floatOf s with
      | none => rw [hf] at h2; simp at h2
      | some q =>
        rw [hf] at h2
        simp only [Option.some.injEq] at h2
        subst h2
        exact ⟨rfl, hne⟩

theorem key_has_record {rows : List Record} {k : String} {q : Rat}
    (h : specLastWins rows k = some q) :
    ∃ r ∈ rows, extract_year r.vars = k ∧ k ≠ "" := by
  unfold specLastWins at h
  obtain ⟨p, hp, _⟩ := Option.map_eq_some'.mp h
  obtain ⟨hlne, hpl⟩ := List.mem_getLast?_eq_getLast (Option.mem_def.mpr hp)
  have hpmem : p ∈ (rows.filterMap recEntry).filter (fun p => p.1 = k) := by
    rw [hpl]
    exact List.getLast_mem hlne
  rw [List.mem_filter] at hpmem
  obtain ⟨hpm, hpk⟩ := hpmem
  obtain ⟨r, hr, hre⟩ := List.mem_filterMap.mp hpm
  obtain ⟨h1, h2⟩ := recEntry_some hre
  have hk : p.1 = k := by simpa using hpk
  exact ⟨r, hr, by rw [← h1, hk], by rw [← hk, h1]; exact h2⟩

/-- C7: the Series Fetcher's mapping holds `year → float(value)` exactly for
the records with an extractable year and a present, convertible value, with
the last record winning on a repeated year (`specLastWins`); records with a
missing value, unextractable year or non-convertible value contribute no key.
Concretely: of two records for 2015/2017 with the 2017 value non-numeric,
only "2015" is a key; a repeated year keeps the last value. -/
theorem c7_series_semantics :
    (∀ iso code yS yE rows k,
      fetch_series_range iso code yS yE rows k = specLastWins rows k) ∧
    (fetch_series_range "AFG" "DT.DOD.DECT.CD" "2010" "2020"
      [⟨[⟨some "time", none, some "yr2015", none⟩], some (.conv 5)⟩,
       ⟨[⟨some "time", none, some "yr2017", none⟩], some (.nonconv "n/a")⟩] "2015" = some 5 ∧
     fetch_series_range "AFG" "DT.DOD.DECT.CD" "2010" "2020"
      [⟨[⟨some "time", none, some "yr2015", none⟩], some (.conv 5)⟩,
       ⟨[⟨some "time", none, some "yr2017", none⟩], some (.nonconv "n/a")⟩] "2017" = none ∧
     fetch_series_range "AFG" "DT.DOD.DECT.CD" "2010" "2020"
      [⟨[⟨some "time", none, some "yr2015", none⟩], some (.conv 5)⟩,
       ⟨[⟨some "time", none, some "yr2017", none⟩], some (.nonconv "n/a")⟩] "2016" = none) ∧
    fetch_series_range "AFG" "DT.DOD.DECT.CD" "2010" "2020"
      [⟨[⟨some "time", none, some "yr2015", none⟩], some (.conv 1)⟩,
       ⟨[⟨some "time", none, some "yr2015", none⟩], some (.conv 2)⟩] "2015" = some 2 :=
  ⟨fun _ _ _ _ rows k => fsr_eq_lastWins rows k, ⟨rfl, rfl, rfl⟩, rfl⟩

/-- C2 amended: the code does not filter by the requested window; what holds
is that every stored key is the extracted year of some returned record, so
whenever every returned record's extracted year lies within
`[yearStart, yearEnd]` (as the ranged API query is meant to guarantee), every
key of the mapping lies within the window. -/
theorem c2_amended (iso3 code yS yE : String) (rows : List Record) (k : String) (q : Rat)
    (hwin : ∀ r ∈ rows, extract_year r.vars ≠ "" →
      pyInt yS ≤ pyInt (extract_year r.vars) ∧ pyInt (extract_year r.vars) ≤ pyInt yE)
    (hk : fetch_series_range iso3 code yS yE rows k = some q) :
    pyInt yS ≤ pyInt k ∧ pyInt k ≤ pyInt yE := by
  have h : specLastWins rows k = some q := by
    rw [← fsr_eq_lastWins rows k]
    exact hk
  obtain ⟨r, hr, hy, hne⟩ := key_has_record h
  have hy' : extract_year r.vars ≠ "" := by rw [hy]; exact hne
  have hw := hwin r hr hy'
  rw [hy] at hw
  exact hw

theorem c2_amended_witness :
    pyInt "2013" ≤ pyInt "2015" ∧ pyInt "2015" ≤ pyInt "2023" :=
  c2_amended "AFG" "DT.DOD.DECT.CD" "2013" "2023"
    [⟨[⟨some "time", none, some "yr2015", none⟩], some (.conv 3)⟩] "2015" 3
    (by decide) rfl

theorem bestYear_of_no_year {rows : List Record}
    (h : ∀ r ∈ rows, extract_year r.vars = "") : bestYear rows = "" := by
  unfold bestYear
  induction rows with
  | nil => rfl
  | cons r rest ih =>
    rw [List.foldl_cons]
    have hr : extract_year r.vars = "" := h r (List.mem_cons_self r rest)
    simp only [hr, ne_eq, not_true_eq_false, false_and, if_false]
    exact ih (fun r' hr' => h r' (List.mem_cons_of_mem r hr'))

/-- C3 amended: the year-2000 floor is enforced only in the no-data case.
When Year Discovery extracts no year from any record it returns
`str(max(2000, currentYear - 2))`, a value at least 2000; when some year is
extractable, the maximum extracted year is returned as-is and may be earlier
than 2000 (see the counterexample). -/
theorem c3_amended (rows : List Record) (cy : Int)
    (h : ∀ r ∈ rows, extract_year r.vars = "") :
    find_latest_year rows cy = toString (max 2000 (cy - 2)) ∧
    (2000 : Int) ≤ max 2000 (cy - 2) := by
  refine ⟨?_, le_max_left _ _⟩
  unfold find_latest_year
  rw [bestYear_of_no_year h]
  rfl

theorem c3_amended_witness :
    find_latest_year [⟨[⟨some "region", none, some "abc", none⟩], none⟩] 2026
      = toString (max 2000 (2026 - 2)) ∧
    (2000 : Int) ≤ max 2000 (2026 - 2) :=
  c3_amended [⟨[⟨some "region", none, some "abc", none⟩], none⟩] 2026 (by decide)

/-- C5: year extraction prefers the first tuple whose label contains "time"
(case-insensitively); with no such tuple it uses the tuple at index 1 when at
least two tuples exist. Concretely: a "Time"-labeled tuple with id "yr2019"
wins over the index-1 tuple and yields "2019"; with no "time" label and
tuple[1].id = "YR2005" the result is "2005"; an unparseable tuple list yields
"". -/
theorem c5_year_preference
    (l1 l2 : List Tup) (v : Tup) (l : List Tup)
    (h1 : ∀ u ∈ l1, isTimeTup u = false) (hv : isTimeTup v = true)
    (hl : ∀ u ∈ l, isTimeTup u = false) (hlen : 2 ≤ l.length) :
    chooseTimeTuple (l1 ++ v :: l2) = some v ∧
    chooseTimeTuple l = l[1]? ∧
    extract_year [⟨some "region", none, some "XX", none⟩, ⟨some "series", none, some "DT.4D", none⟩,
      ⟨some "Time", none, some "yr2019", none⟩] = "2019" ∧
    extract_year [⟨some "country", none, some "AFG", none⟩,
      ⟨some "year", none, some "YR2005", none⟩] = "2005" ∧
    extract_year [⟨some "x", none, some "??", some "zz"⟩] = "" := by
  refine ⟨?_, ?_, by decide, by decide, by decide⟩
  · unfold chooseTimeTuple
    rw [List.find?_append]
    have hnone : l1.find? isTimeTup = none := List.find?_eq_none.mpr (by
      intro x hx
      simp [h1 x hx])
    rw [hnone]
    simp [List.find?_cons, hv]
  · unfold chooseTimeTuple
    have hnone : l.find? isTimeTup = none := List.find?_eq_none.mpr (by
      intro x hx
      simp [hl x hx])
    rw [hnone]
    simp only []
    rw [if_pos (by omega)]

theorem c5_year_preference_witness :
    chooseTimeTuple ([⟨some "region", none, none, none⟩] ++
        (⟨some "Time", none, some "yr2019", none⟩ : Tup) :: []) =
      some ⟨some "Time", none, some "yr2019", none⟩ ∧
    chooseTimeTuple [⟨some "a", none, none, none⟩, ⟨some "b", none, none, none⟩] =
      [(⟨some "a", none, none, none⟩ : Tup), ⟨some "b", none, none, none⟩][1]? :=
  ⟨(c5_year_preference [⟨some "region", none, none, none⟩] [] ⟨some "Time", none, some "yr2019", none⟩
      [⟨some "a", none, none, none⟩, ⟨some "b", none, none, none⟩]
      (by decide) (by decide) (by decide) (by decide)).1,
   (c5_year_preference [⟨some "region", none, none, none⟩] [] ⟨some "Time", none, some "yr2019", none⟩
      [⟨some "a", none, none, none⟩, ⟨some "b", none, none, none⟩]
      (by decide) (by decide) (by decide) (by decide)).2.1⟩

/-- C10 (implicit): in the labeled pass of ISO3 extraction, a tuple's value
field is consulted only when its id is absent or empty; a labeled tuple with
a non-empty id that holds no uppercase 3-letter run contributes no match even
if its value field does, and extraction falls through to later labeled tuples
or to the unlabeled fallback scan (which does read value fields). -/
theorem c10_id_shadows_value (v : Tup) (s : String) (hid : v.id = some s) (hs : s ≠ "") :
    geoCode v = s ∧
    (∀ w : Tup, w.id = none → geoCode w = w.value.getD "") ∧
    (∀ w : Tup, w.id = some "" → geoCode w = w.value.getD "") ∧
    extract_iso3 [⟨some "country", none, some "xx", some "AAA"⟩,
      ⟨some "economy", none, some "BBB", none⟩] = "BBB" ∧
    extract_iso3 [⟨some "country", none, none, some "AAA"⟩] = "AAA" ∧
    extract_iso3 [⟨some "country", none, some "", some "CCC"⟩] = "CCC" ∧
    extract_iso3 [⟨some "country", none, some "xx", some "AAA"⟩] = "AAA" := by
  refine ⟨?_, ?_, ?_, by decide, by decide, by decide, by decide⟩
  · unfold geoCode firstTruthy
    rw [hid]
    simp [hs]
  · intro w hw
    unfold geoCode firstTruthy
    rw [hw]
    cases hv : w.value with
    | none => rfl
    | some t =>
      by_cases ht : t = "" <;> simp [firstTruthy, ht]
  · intro w hw
    unfold geoCode firstTruthy
    rw [hw]
    cases hv : w.value with
    | none => rfl
    | some t =>
      by_cases ht : t = "" <;> simp [firstTruthy, ht]

theorem c10_id_shadows_value_witness :
    geoCode ⟨some "country", none, some "ZWE", some "XXX"⟩ = "ZWE" :=
  (c10_id_shadows_value ⟨some "country", none, some "ZWE", some "XXX"⟩ "ZWE" rfl (by decide)).1

theorem pass1_eq_spec (l : List Tup) : pass1 l = specLabeledIso3 l := by
  induction l with
  | nil => rfl
  | cons v rest ih =>
    by_cases hg : isGeoTup v
    · simp only [pass1, specLabeledIso3, List.filter_cons, hg, if_true, List.findSome?_cons]
      cases h : scanUpper3 (geoCode v).toList with
      | some s => rfl
      | none => exact ih
    · simp only [pass1, specLabeledIso3, List.filter_cons, hg, Bool.false_eq_true, if_false]
      exact ih

theorem pass2_eq_spec (l : List Tup) : pass2 l = specAnyIso3 l := by
  induction l with
  | nil => rfl
  | cons v rest ih =>
    simp only [pass2, specAnyIso3, List.findSome?_cons]
    cases h1 : scanUpper3 (v.id.getD "").toList with
    | some s => rfl
    | none =>
      cases h2 : scanUpper3 (v.value.getD "").toList with
      | some s => simp [Option.orElse, h2]
      | none => simpa [Option.orElse, h2] using ih

/-- C6: ISO3 extraction equals the spec's two-pass pipeline — first the
labeled pass over country/economy tuples, only then the unlabeled fallback
over every tuple's id and value, else "". Concretely: a "Country"-labeled
tuple with id "AFGx" yields "AFG" even though an unlabeled tuple holds the
different run "ZWE"; with no labeled tuple the first run found anywhere
("BRA") is returned; an empty list yields "". -/
theorem c6_iso3_precedence :
    (∀ l : List Tup, extract_iso3 l = specExtractIso3 l) ∧
    extract_iso3 [⟨some "Country", none, some "AFGx", none⟩, ⟨none, none, some "ZWE", none⟩]
      = "AFG" ∧
    extract_iso3 [⟨some "series", none, some "DT.4D", none⟩, ⟨none, none, some "xxBRA", none⟩]
      = "BRA" ∧
    extract_iso3 [] = "" := by
  refine ⟨?_, by decide, by decide, rfl⟩
  intro l
  unfold extract_iso3 specExtractIso3
  rw [← pass1_eq_spec, ← pass2_eq_spec]
  cases h1 : pass1 l with
  | some s => rfl
  | none =>
    cases h2 : pass2 l with
    | some s => simp [Option.orElse]
    | none => simp [Option.orElse]

theorem collectSeen_keys_mem :
    ∀ (rows : List Record) (acc : List (String × String)) (iso : String),
      iso ∈ (collectSeen rows acc).map Prod.fst ↔
        (iso ∈ acc.map Prod.fst ∨ (iso ≠ "" ∧ ∃ r ∈ rows, extract_iso3 r.vars = iso)) := by
  intro rows
  induction rows with
  | nil => simp [collectSeen]
  | cons r rest ih =>
    intro acc iso
    by_cases hi : extract_iso3 r.vars = ""
    · rw [show collectSeen (r :: rest) acc = collectSeen rest acc by
        simp [collectSeen, hi]]
      rw [ih]
      simp only [List.mem_cons]
      constructor
      · rintro (h | ⟨hne, rr, hrr, hext⟩)
        · exact Or.inl h
        · exact Or.inr ⟨hne, rr, Or.inr hrr, hext⟩
      · rintro (h | ⟨hne, rr, (rfl | hrr), hext⟩)
        · exact Or.inl h
        · exact absurd (hi.symm.trans hext) hne.symm
        · exact Or.inr ⟨hne, rr, hrr, hext⟩
    · by_cases hm : acc.any (fun p => p.1 = extract_iso3 r.vars)
      · rw [show collectSeen (r :: rest) acc = collectSeen rest acc by
          simp only [collectSeen, hi, if_neg, if_false]
          rw [if_pos hm]]
        rw [ih]
        have hmem : extract_iso3 r.vars ∈ acc.map Prod.fst := by
          rw [List.any_eq_true] at hm
          obtain ⟨p, hp, hpe⟩ := hm
          simp only [decide_eq_true_eq] at hpe
          exact hpe ▸ List.mem_map_of_mem Prod.fst hp
        simp only [List.mem_cons]
        constructor
        · rintro (h | ⟨hne, rr, hrr, hext⟩)
          · exact Or.inl h
          · exact Or.inr ⟨hne, rr, Or.inr hrr, hext⟩
        · rintro (h | ⟨hne, rr, (rfl | hrr), hext⟩)
          · exact Or.inl h
          · exact Or.inl (hext ▸ hmem)
          · exact Or.inr ⟨hne, rr, hrr, hext⟩
      · rw [show collectSeen (r :: rest) acc =
            collectSeen rest (acc ++ [(extract_iso3 r.vars, extract_iso3 r.vars)]) by
          simp only [collectSeen, hi, if_neg, if_false]
          rw [if_neg hm]]
        rw [ih]
        simp only [List.map_append, List.map_cons, List.map_nil, List.mem_append,
          List.mem_singleton, List.mem_cons, List.not_mem_nil, or_false]
        constructor
        · rintro ((h | h) | ⟨hne, rr, hrr, hext⟩)
          · exact Or.inl h
          · exact Or.inr ⟨h ▸ hi, r, Or.inl rfl, h.symm⟩
          · exact Or.inr ⟨hne, rr, Or.inr hrr, hext⟩
        · rintro (h | ⟨hne, rr, (rfl | hrr), hext⟩)
          · exact Or.inl (Or.inl h)
          · exact Or.inl (Or.inr hext.symm)
          · exact Or.inr ⟨hne, rr, hrr, hext⟩

theorem collectSeen_keys_nodup :
    ∀ (rows : List Record) (acc : List (String × String)),
      (acc.map Prod.fst).Nodup → ((collectSeen rows acc).map Prod.fst).Nodup := by
  intro rows
  induction rows with
  | nil => intro acc h; simpa [collectSeen] using h
  | cons r rest ih =>
    intro acc hacc
    by_cases hi : extract_iso3 r.vars = ""
    · rw [show collectSeen (r :: rest) acc = collectSeen rest acc by
        simp [collectSeen, hi]]
      exact ih acc hacc
    · by_cases hm : acc.any (fun p => p.1 = extract_iso3 r.vars)
      · rw [show collectSeen (r :: rest) acc = collectSeen rest acc by
          simp only [collectSeen, hi, if_neg, if_false]
          rw [if_pos hm]]
        exact ih acc hacc
      · rw [show collectSeen (r :: rest) acc =
            collectSeen rest (acc ++ [(extract_iso3 r.vars, extract_iso3 r.vars)]) by
          simp only [collectSeen, hi, if_neg, if_false]
          rw [if_neg hm]]
        refine ih _ ?_
        rw [List.map_append, List.map_cons, List.map_nil]
        rw [List.nodup_append]
        refine ⟨hacc, List.nodup_singleton _, ?_⟩
        intro a ha hb
        rw [List.mem_singleton] at hb
        subst hb
        rw [List.any_eq_true] at hm
        obtain ⟨p, hp, hpe⟩ := List.mem_map.mp ha
        exact hm ⟨p, hp, by simp [hpe]⟩

theorem collectSeen_snd_eq :
    ∀ (rows : List Record) (acc : List (String × String)),
      (∀ p ∈ acc, p.2 = p.1) → ∀ p ∈ collectSeen rows acc, p.2 = p.1 := by
  intro rows
  induction rows with
  | nil => intro acc h; simpa [collectSeen] using h
  | cons r rest ih =>
    intro acc hacc
    by_cases hi : extract_iso3 r.vars = ""
    · rw [show collectSeen (r :: rest) acc = collectSeen rest acc by
        simp [collectSeen, hi]]
      exact ih acc hacc
    · by_cases hm : acc.any (fun p => p.1 = extract_iso3 r.vars)
      · rw [show collectSeen (r :: rest) acc = collectSeen rest acc by
          simp only [collectSeen, hi, if_neg, if_false]
          rw [if_pos hm]]
        exact ih acc hacc
      · rw [show collectSeen (r :: rest) acc =
            collectSeen rest (acc ++ [(extract_iso3 r.vars, extract_iso3 r.vars)]) by
          simp only [collectSeen, hi, if_neg, if_false]
          rw [if_neg hm]]
        refine ih _ ?_
        intro p hp
        rw [List.mem_append] at hp
        rcases hp with hp | hp
        · exact hacc p hp
        · rw [List.mem_singleton] at hp
          subst hp
          rfl

theorem upgradeNames_keys (seen : List (String × String)) (names : String → Option String) :
    (upgradeNames seen names).map Prod.fst = seen.map Prod.fst := by
  unfold upgradeNames
  rw [List.map_map]
  refine List.map_congr_left ?_
  intro p _
  cases h : names p.1 <;> simp [h]

theorem upgradeNames_snd {seen : List (String × String)} {names : String → Option String}
    (hseen : ∀ q ∈ seen, q.2 = q.1) :
    ∀ p ∈ upgradeNames seen names, p.2 = (names p.1).getD p.1 := by
  intro p hp
  obtain ⟨q, hq, hpq⟩ := List.mem_map.mp hp
  cases h : names q.1 with
  | none =>
    rw [h] at hpq
    subst hpq
    rw [h]
    simpa using hseen q hq
  | some n =>
    rw [h] at hpq
    subst hpq
    rw [h]
    rfl

theorem fallbackCountries_eq (rows : List Record) (names? : Option (String → Option String)) :
    fallbackCountries rows names? =
      (match names? with
       | some names => upgradeNames (collectSeen rows []) names
       | none => collectSeen rows []).insertionSort
        (fun a b : String × String => a.1 ≤ b.1) := rfl

/-- C8: when the primary country-list call raises, or its filtered result is
empty, the resolver derives the universe from the probe rows: each extracted
ISO3 code appears exactly once (deduplicated across records), each entry's
name is its own code when the secondary name lookup failed (else the
looked-up name when present, still the code otherwise), and the result is
sorted by id. -/
theorem c8_resolver_fallback (rows : List Record) (names? : Option (String → Option String))
    (arr : List (Option String × Option String)) (hemp : primaryFilter arr = []) :
    fetch_source6_countries (.ok arr) rows names? =
      fetch_source6_countries (.error ()) rows names? ∧
    ((fetch_source6_countries (.error ()) rows names?).map Prod.fst).Nodup ∧
    (∀ iso, iso ∈ (fetch_source6_countries (.error ()) rows names?).map Prod.fst ↔
      (iso ≠ "" ∧ ∃ r ∈ rows, extract_iso3 r.vars = iso)) ∧
    (∀ p ∈ fetch_source6_countries (.error ()) rows names?,
      p.2 = (match names? with
             | none => p.1
             | some names => (names p.1).getD p.1)) ∧
    List.Pairwise (fun a b : String × String => a.1 ≤ b.1)
      (fetch_source6_countries (.error ()) rows names?) := by
  have herr : fetch_source6_countries (.error ()) rows names? = fallbackCountries rows names? :=
    rfl
  have hok : fetch_source6_countries (.ok arr) rows names? = fallbackCountries rows names? := by
    have h2 : fetch_source6_countries (.ok arr) rows names? =
        (if primaryFilter arr ≠ [] then primaryFilter arr else fallbackCountries rows names?) :=
      rfl
    rw [h2, hemp]
    simp
  haveI : IsTotal (String × String) (fun a b => a.1 ≤ b.1) := ⟨fun a b => le_total a.1 b.1⟩
  haveI : IsTrans (String × String) (fun a b => a.1 ≤ b.1) := ⟨fun a b c h1 h2 => le_trans h1 h2⟩
  have hseen_nodup : ((collectSeen rows []).map Prod.fst).Nodup :=
    collectSeen_keys_nodup rows [] (by simp)
  have hseen_snd : ∀ p ∈ collectSeen rows [], p.2 = p.1 :=
    collectSeen_snd_eq rows [] (by simp)
  have hseen_mem : ∀ iso, iso ∈ (collectSeen rows []).map Prod.fst ↔
      (iso ≠ "" ∧ ∃ r ∈ rows, extract_iso3 r.vars = iso) := by
    intro iso
    rw [collectSeen_keys_mem rows [] iso]
    simp
  rcases names? with _ | names
  · rw [herr, hok, fallbackCountries_eq]
    have hperm : ((collectSeen rows []).insertionSort
        (fun a b : String × String => a.1 ≤ b.1)).Perm (collectSeen rows []) :=
      List.perm_insertionSort _ _
    refine ⟨rfl, ?_, ?_, ?_, ?_⟩
    · exact ((hperm.map Prod.fst).nodup_iff).mpr hseen_nodup
    · intro iso
      rw [(hperm.map Prod.fst).mem_iff]
      exact hseen_mem iso
    · intro p hp
      exact hseen_snd p (hperm.mem_iff.mp hp)
    · exact List.sorted_insertionSort _ _
  · rw [herr, hok, fallbackCountries_eq]
    have hperm : ((upgradeNames (collectSeen rows []) names).insertionSort
        (fun a b : String × String => a.1 ≤ b.1)).Perm
          (upgradeNames (collectSeen rows []) names) :=
      List.perm_insertionSort _ _
    refine ⟨rfl, ?_, ?_, ?_, ?_⟩
    · refine ((hperm.map Prod.fst).nodup_iff).mpr ?_
      rw [upgradeNames_keys]
      exact hseen_nodup
    · intro iso
      rw [(hperm.map Prod.fst).mem_iff, upgradeNames_keys]
      exact hseen_mem iso
    · intro p hp
      exact upgradeNames_snd hseen_snd p (hperm.mem_iff.mp hp)
    · exact List.sorted_insertionSort _ _

theorem c8_resolver_fallback_witness :
    ((fetch_source6_countries (.error ())
        [⟨[⟨some "country", none, some "ZWE", none⟩], none⟩,
         ⟨[⟨some "country", none, some "AFG", none⟩], none⟩,
         ⟨[⟨some "country", none, some "ZWE", none⟩], none⟩] none).map Prod.fst).Nodup :=
  (c8_resolver_fallback
    [⟨[⟨some "country", none, some "ZWE", none⟩], none⟩,
     ⟨[⟨some "country", none, some "AFG", none⟩], none⟩,
     ⟨[⟨some "country", none, some "ZWE", none⟩], none⟩] none [] rfl).2.1

theorem countryLoop_foldl (api : Api) (cy : Int) :
    ∀ (cs : List (String × String)) (acc : List (String × Dataset)),
      cs.foldl
        (fun acc c =>
          match buildDataset api cy c.1 c.2 with
          | .ok d => acc ++ [(c.1, d)]
          | .error _ => acc) acc
      = acc ++ cs.filterMap
          (fun c => (buildDataset api cy c.1 c.2).toOption.map (fun d => (c.1, d))) := by
  intro cs
  induction cs with
  | nil => intro acc; simp
  | cons c rest ih =>
    intro acc
    rw [List.foldl_cons, List.filterMap_cons]
    cases h : buildDataset api cy c.1 c.2 with
    | ok d =>
      rw [ih]
      simp [Except.toOption]
    | error e =>
      rw [ih]
      simp [Except.toOption]

/-- C9: an exception in one country's block (discovery or any indicator
fetch) is caught, that country's file is not written, every other country's
file is, in order, and the exit code is 0 whenever the country universe is
non-empty. Concretely, with three countries whose middle one raises during
discovery, exactly the files of countries 1 and 3 are written and the exit
code is 0. -/
theorem c9_partial_failure (api : Api) (cy : Int) (countries : List (String × String))
    (hne : countries ≠ []) :
    (main api cy countries).2 = 0 ∧
    (main api cy countries).1 = countries.filterMap
      (fun c => (buildDataset api cy c.1 c.2).toOption.map (fun d => (c.1, d))) ∧
    (main demoApi 2025 [("AAA", "A"), ("BBB", "B"), ("CCC", "C")]).1.map Prod.fst
      = ["AAA", "CCC"] ∧
    (main demoApi 2025 [("AAA", "A"), ("BBB", "B"), ("CCC", "C")]).2 = 0 ∧
    (buildDataset demoApi 2025 "BBB" "B").toOption = none := by
  refine ⟨?_, ?_, ?_, rfl, rfl⟩
  · simp [main, hne]
  · unfold main countryLoop
    rw [if_neg hne]
    exact (countryLoop_foldl api cy countries []).trans (by simp)
  · rfl

theorem c9_partial_failure_witness :
    (main demoApi 2025 [("AAA", "A"), ("BBB", "B"), ("CCC", "C")]).1.map Prod.fst
      = ["AAA", "CCC"] :=
  (c9_partial_failure demoApi 2025 [("AAA", "A"), ("BBB", "B"), ("CCC", "C")]
    (by decide)).2.2.1

end FetchIds
